import Mathlib

/-!
Verification of the n8n GitHub session manager node against its
natural-language specification.

The development shallowly embeds the TypeScript sources:
* `src/helpers/github.ts` — app-JWT construction (`createAppJwt`,
  `b64url`) and the installation-token exchange (`getInstallationToken`);
* `src/helpers/n8n-api.ts` — the n8n REST helpers (`listWorkflows`,
  `readWorkflow`, `updateWorkflow`, `createGithubApiCredential`) and the
  bulk credential rewire loop (`rewireWorkflowsGithubCredential`);
* the two node versions (`GithubSessionManager.node.ts`) — direct
  credential update mode and bulk rewire mode of `execute`.

External I/O (axios calls, node `crypto`) is modelled by explicit
response environments and by an opaque signing function; each network
request issued by the code is recorded in an explicit event trace.
-/

/-! ## Assertion signer: URL-safe base64 and the app JWT
Embedding of `b64url`, `signJwtRS256` and `createAppJwt` from
`src/helpers/github.ts`. -/

/-- The standard base64 alphabet, as produced by `Buffer.toString('base64')`. -/
def b64Table : List Char :=
  "ABCDEFGHIJKLMNOPQRSTUVWXYZabcdefghijklmnopqrstuvwxyz0123456789+/".data

/-- Character at index `i` of the base64 alphabet (defaulting inside the
alphabet, so every produced character is an alphabet character). -/
def b64Char (i : Nat) : Char := b64Table.getD i 'A'

/-- Standard base64 encoding of a byte list, three bytes to four output
characters, with `'='` padding on a trailing partial group — the model of
`Buffer.toString('base64')`. -/
def b64EncodeChunks : List Nat → List Char
  | [] => []
  | [a] => [b64Char (a / 4), b64Char (a % 4 * 16), '=', '=']
  | [a, b] => [b64Char (a / 4), b64Char (a % 4 * 16 + b / 16), b64Char (b % 16 * 4), '=']
  | a :: b :: c :: rest =>
    b64Char (a / 4) :: b64Char (a % 4 * 16 + b / 16) ::
      b64Char (b % 16 * 4 + c / 64) :: b64Char (c % 64) :: b64EncodeChunks rest

/-- `.replace(/\+/g, '-').replace(/\//g, '_')` on one character. -/
def urlMapChar (c : Char) : Char :=
  if c = '+' then '-' else if c = '/' then '_' else c

/-- `.replace(/=+$/g, '')`: remove the trailing run of `'='` characters. -/
def stripTrailingEq (l : List Char) : List Char :=
  (l.reverse.dropWhile (· = '=')).reverse

/-- `b64url(buf)`: base64, `+`→`-`, `/`→`_`, trailing `=` stripped. -/
def b64url (bytes : List Nat) : String :=
  ⟨stripTrailingEq ((b64EncodeChunks bytes).map urlMapChar)⟩

/-- UTF-8 encoding of one character (`Buffer.from(string)` byte model). -/
def utf8Char (c : Char) : List Nat :=
  let n := c.toNat
  if n < 128 then [n]
  else if n < 2048 then [192 + n / 64, 128 + n % 64]
  else if n < 65536 then [224 + n / 4096, 128 + n / 64 % 64, 128 + n % 64]
  else [240 + n / 262144, 128 + n / 4096 % 64, 128 + n / 64 % 64, 128 + n % 64]

/-- UTF-8 bytes of a string, as `Buffer.from(s)` yields them. -/
def strBytes (s : String) : List Nat := s.data.flatMap utf8Char

/-- Four-digit hexadecimal rendering used by JSON `\uXXXX` escapes. -/
def hexDigit (n : Nat) : Char := "0123456789abcdef".data.getD (n % 16) '0'

/-- JSON escaping of one string character, as `JSON.stringify` performs it. -/
def jsonEscapeChar (c : Char) : List Char :=
  if c = '"' then ['\\', '"']
  else if c = '\\' then ['\\', '\\']
  else if c = '\n' then ['\\', 'n']
  else if c = '\r' then ['\\', 'r']
  else if c = '\t' then ['\\', 't']
  else if c.toNat < 32 then
    ['\\', 'u', '0', '0', hexDigit (c.toNat / 16), hexDigit c.toNat]
  else [c]

/-- JSON string literal for `s` (quotes plus escaped body). -/
def jsonString (s : String) : String :=
  "\"" ++ ⟨s.data.flatMap jsonEscapeChar⟩ ++ "\""

/-- The JWT payload object `{ iat: now - 60, exp: now + 9 * 60, iss: String(appId) }`. -/
structure JwtPayload where
  iat : Int
  exp : Int
  iss : String
deriving DecidableEq, Repr

/-- `JSON.stringify` of the payload object (insertion key order `iat`, `exp`, `iss`). -/
def payloadJson (p : JwtPayload) : String :=
  "\x7b\"iat\":" ++ toString p.iat ++ ",\"exp\":" ++ toString p.exp ++
    ",\"iss\":" ++ jsonString p.iss ++ "\x7d"

/-- `JSON.stringify({ alg: 'RS256', typ: 'JWT' })`. -/
def headerJson : String := "\x7b\"alg\":\"RS256\",\"typ\":\"JWT\"\x7d"

/-- `signJwtRS256(header, payload, pem)` with the `crypto` RSA-SHA256 signer
abstracted as an opaque byte-producing function of the signed data. -/
def signJwtRS256 (headerStr payloadStr : String) (sign : String → List Nat) : String :=
  let h := b64url (strBytes headerStr)
  let p := b64url (strBytes payloadStr)
  let data := h ++ "." ++ p
  data ++ "." ++ b64url (sign data)

/-- `createAppJwt(appId, pem)`; `now` is the sampled Unix timestamp and
`appId` is already the result of `String(appId)`. -/
def createAppJwt (now : Int) (appId : String) (sign : String → List Nat) : String :=
  signJwtRS256 headerJson (payloadJson ⟨now - 60, now + 9 * 60, appId⟩) sign

/-- Characters admissible in a URL-safe, padding-stripped base64 segment. -/
def isUrlSafeChar (c : Char) : Bool :=
  c.isAlphanum || c = '-' || c = '_'

theorem b64Char_mem (i : Nat) : b64Char i ∈ b64Table := by
  unfold b64Char
  by_cases h : i < b64Table.length
  · rw [List.getD_eq_getElem _ _ h]
    exact List.getElem_mem h
  · rw [List.getD_eq_default _ _ (Nat.le_of_not_lt h)]
    decide

theorem b64EncodeChunks_decomp : ∀ l : List Nat, ∃ main k,
    b64EncodeChunks l = main ++ List.replicate k '=' ∧
      (∀ c ∈ main, c ∈ b64Table) ∧ k ≤ 2
  | [] => ⟨[], 0, by simp [b64EncodeChunks], by simp, by omega⟩
  | [a] =>
    ⟨[b64Char (a / 4), b64Char (a % 4 * 16)], 2, by
      simp [b64EncodeChunks, List.replicate], by
      intro c hc
      simp only [List.mem_cons, List.not_mem_nil, or_false] at hc
      rcases hc with h | h <;> (subst h; exact b64Char_mem _), by omega⟩
  | [a, b] =>
    ⟨[b64Char (a / 4), b64Char (a % 4 * 16 + b / 16), b64Char (b % 16 * 4)], 1, by
      simp [b64EncodeChunks, List.replicate], by
      intro c hc
      simp only [List.mem_cons, List.not_mem_nil, or_false] at hc
      rcases hc with h | h | h <;> (subst h; exact b64Char_mem _), by omega⟩
  | a :: b :: c :: rest => by
    obtain ⟨m, k, h1, h2, h3⟩ := b64EncodeChunks_decomp rest
    refine ⟨b64Char (a / 4) :: b64Char (a % 4 * 16 + b / 16) ::
      b64Char (b % 16 * 4 + c / 64) :: b64Char (c % 64) :: m, k, ?_, ?_, h3⟩
    · simp [b64EncodeChunks, h1]
    · intro x hx
      simp only [List.mem_cons] at hx
      rcases hx with h | h | h | h | h
      · subst h; exact b64Char_mem _
      · subst h; exact b64Char_mem _
      · subst h; exact b64Char_mem _
      · subst h; exact b64Char_mem _
      · exact h2 x h

theorem urlMap_table_safe : ∀ c ∈ b64Table, isUrlSafeChar (urlMapChar c) = true := by decide

theorem urlMap_table_ne_eq : ∀ c ∈ b64Table, ¬ urlMapChar c = '=' := by decide

theorem urlMapChar_eq_self : urlMapChar '=' = '=' := by decide

theorem dropWhile_replicate_eq (k : Nat) (t : List Char) :
    List.dropWhile (· = '=') (List.replicate k '=' ++ t) = List.dropWhile (· = '=') t := by
  induction k with
  | zero => simp
  | succ n ih => simp [List.replicate_succ, List.dropWhile_cons, ih]

theorem dropWhile_eq_self_of_not (t : List Char) (h : ∀ c ∈ t, ¬ c = '=') :
    List.dropWhile (· = '=') t = t := by
  cases t with
  | nil => rfl
  | cons a l =>
    rw [List.dropWhile_cons]
    simp [h a (List.mem_cons_self a l)]

theorem stripTrailingEq_append (m : List Char) (k : Nat) (h : ∀ c ∈ m, ¬ c = '=') :
    stripTrailingEq (m ++ List.replicate k '=') = m := by
  unfold stripTrailingEq
  rw [List.reverse_append, List.reverse_replicate, dropWhile_replicate_eq,
    dropWhile_eq_self_of_not _ (fun c hc => h c (List.mem_reverse.mp hc)),
    List.reverse_reverse]

theorem b64url_safe (bytes : List Nat) : ∀ c ∈ (b64url bytes).data, isUrlSafeChar c = true := by
  obtain ⟨m, k, h1, h2, h3⟩ := b64EncodeChunks_decomp bytes
  have hmap : (b64EncodeChunks bytes).map urlMapChar =
      m.map urlMapChar ++ List.replicate k '=' := by
    rw [h1, List.map_append, List.map_replicate, urlMapChar_eq_self]
  have hdata : (b64url bytes).data = m.map urlMapChar := by
    show stripTrailingEq _ = _
    rw [hmap]
    exact stripTrailingEq_append _ _ (by
      intro x hx
      obtain ⟨y, hy, rfl⟩ := List.mem_map.mp hx
      exact urlMap_table_ne_eq y (h2 y hy))
  intro c hc
  rw [hdata] at hc
  obtain ⟨y, hy, rfl⟩ := List.mem_map.mp hc
  exact urlMap_table_safe y (h2 y hy)

/-- C7: for every timestamp, issuer id and signing function, the produced
assertion is `b64url(header) ++ "." ++ b64url(payload) ++ "." ++ b64url(signature)`
— exactly three dot-separated, URL-safe, padding-stripped base64 segments —
where the payload carries the issuer id as a string, issued-at `now - 60`
seconds and expiry `now + 540` seconds. -/
theorem createAppJwt_three_urlsafe_segments (now : Int) (appId : String)
    (sign : String → List Nat) :
    ∃ s1 s2 s3,
      createAppJwt now appId sign = s1 ++ "." ++ s2 ++ "." ++ s3 ∧
      s1 = b64url (strBytes headerJson) ∧
      s2 = b64url (strBytes (payloadJson ⟨now - 60, now + 540, appId⟩)) ∧
      s3 = b64url (sign (s1 ++ "." ++ s2)) ∧
      (∀ c ∈ s1.data, isUrlSafeChar c = true) ∧
      (∀ c ∈ s2.data, isUrlSafeChar c = true) ∧
      (∀ c ∈ s3.data, isUrlSafeChar c = true) ∧
      isUrlSafeChar '.' = false := by
  have h540 : now + 9 * 60 = now + 540 := by norm_num
  refine ⟨b64url (strBytes headerJson),
    b64url (strBytes (payloadJson ⟨now - 60, now + 540, appId⟩)),
    b64url (sign (b64url (strBytes headerJson) ++ "." ++
      b64url (strBytes (payloadJson ⟨now - 60, now + 540, appId⟩)))),
    ?_, rfl, rfl, rfl, b64url_safe _, b64url_safe _, b64url_safe _, by decide⟩
  show signJwtRS256 headerJson (payloadJson ⟨now - 60, now + 9 * 60, appId⟩) sign = _
  rw [h540]
  rfl

/-! ## Token exchanger
Embedding of `getInstallationToken` from `src/helpers/github.ts`. The HTTP
layer is modelled by handing the function the server's response; the
request it issues (URL and JSON body fields) is returned alongside the
result. The bearer assertion placed in the `Authorization` header is the
output of `createAppJwt` above. -/

/-- The response payload (`res.data`): the fields the code reads plus its
`JSON.stringify` rendering used in error messages. -/
structure GhData where
  token : String
  expires_at : String
  stringified : String
deriving DecidableEq, Repr

/-- An axios response to the token exchange request. -/
structure GhResp where
  status : Nat
  statusText : String
  data : GhData
deriving DecidableEq, Repr

/-- The value returned on success: `res.data as { token, expires_at }`. -/
structure TokenData where
  token : String
  expires_at : String
deriving DecidableEq, Repr

/-- Arguments of `getInstallationToken` that shape the issued request. -/
structure GhTokenArgs where
  installationId : String
  permissions : Option (List (String × String))
  repositories : Option (List String)
deriving DecidableEq, Repr

/-- The issued token exchange request: URL and the JSON body fields
(`data: { permissions, repositories }`; a `none` field models a JS
`undefined`, which `JSON.stringify` omits from the body). -/
structure GhRequest where
  url : String
  permissions : Option (List (String × String))
  repositories : Option (List String)
deriving DecidableEq, Repr

/-- `getInstallationToken(args)` applied to the response `resp`. -/
def getInstallationToken (args : GhTokenArgs) (resp : GhResp) :
    GhRequest × Except String TokenData :=
  let req : GhRequest :=
    { url := "/app/installations/" ++ args.installationId ++ "/access_tokens"
      permissions := args.permissions
      repositories := args.repositories }
  if 400 ≤ resp.status then
    (req, .error ("GitHub token exchange failed: " ++ toString resp.status ++ " " ++
      resp.statusText ++ " - " ++ resp.data.stringified))
  else
    (req, .ok ⟨resp.data.token, resp.data.expires_at⟩)

/-- C6: a token exchange response with status ≥ 400 fails with an error whose
message contains the status code and the stringified response body; a response
with status < 400 yields the token string and expiry exactly as they appear in
the response body's `token`/`expires_at` fields (no client-side computation of
the expiry). -/
theorem getInstallationToken_response_contract (args : GhTokenArgs) (resp : GhResp) :
    (400 ≤ resp.status →
      ∃ msg, (getInstallationToken args resp).2 = .error msg ∧
        (∃ a b, msg = a ++ (toString resp.status ++ b)) ∧
        (∃ a, msg = a ++ resp.data.stringified)) ∧
    (resp.status < 400 →
      (getInstallationToken args resp).2 = .ok ⟨resp.data.token, resp.data.expires_at⟩) := by
  constructor
  · intro h
    refine ⟨"GitHub token exchange failed: " ++ toString resp.status ++ " " ++
        resp.statusText ++ " - " ++ resp.data.stringified, ?_, ?_, ?_⟩
    · show (getInstallationToken args resp).2 = .error _
      simp only [getInstallationToken, if_pos h]
    · exact ⟨"GitHub token exchange failed: ",
        " " ++ resp.statusText ++ " - " ++ resp.data.stringified,
        by simp [String.append_assoc]⟩
    · exact ⟨"GitHub token exchange failed: " ++ toString resp.status ++ " " ++
        resp.statusText ++ " - ", rfl⟩
  · intro h
    show (getInstallationToken args resp).2 = _
    simp only [getInstallationToken, if_neg (Nat.not_le.mpr h)]

/-- Witness for C6 at concrete responses: a 401 response fails with a message
containing the status code and body, and a 200 response returns the body's
`token`/`expires_at` fields verbatim. -/
theorem getInstallationToken_response_contract_witness :
    (∃ msg,
      (getInstallationToken ⟨"456", none, some []⟩
        ⟨401, "Unauthorized", ⟨"", "", "\x7b\"message\":\"Bad credentials\"\x7d"⟩⟩).2 =
          .error msg ∧
        (∃ a b, msg = a ++ (toString 401 ++ b)) ∧
        (∃ a, msg = a ++ "\x7b\"message\":\"Bad credentials\"\x7d")) ∧
    (getInstallationToken ⟨"456", none, some []⟩
      ⟨200, "OK", ⟨"ghs_test", "2025-11-07T10:10:00Z", ""⟩⟩).2 =
        .ok ⟨"ghs_test", "2025-11-07T10:10:00Z"⟩ := by
  refine ⟨?_, ?_⟩
  · have h := (getInstallationToken_response_contract ⟨"456", none, some []⟩
      ⟨401, "Unauthorized", ⟨"", "", "\x7b\"message\":\"Bad credentials\"\x7d"⟩⟩).1
      (by decide)
    exact h
  · exact (getInstallationToken_response_contract ⟨"456", none, some []⟩
      ⟨200, "OK", ⟨"ghs_test", "2025-11-07T10:10:00Z", ""⟩⟩).2 (by decide)

/-! ## Document registry / credential store client and the rewire engine
Embedding of `src/helpers/n8n-api.ts`. A workflow node's `credentials`
record is an association list keyed by credential type; unknown extra
fields of nodes and workflows (`[key: string]: unknown`) are carried
opaquely in `extra` so that preservation can be stated. The n8n server is
modelled by an environment giving the workflow universe and, per request,
the response metadata (status, status text, stringified body). Every
request issued is recorded as an event. -/

/-- A node's credential reference: `{ id?: string; name?: string }`. -/
structure CredRef where
  id : Option String
  name : Option String
deriving DecidableEq, Repr

/-- A workflow node; `extra` models the unknown additional fields. -/
structure WfNode where
  id : String
  name : String
  type : String
  credentials : Option (List (String × CredRef))
  extra : String
deriving DecidableEq, Repr

/-- A workflow document; `extra` models the unknown additional fields. -/
structure Workflow where
  id : Nat
  name : String
  nodes : List WfNode
  extra : String
deriving DecidableEq, Repr

/-- Metadata of one HTTP response: status, status text and the
`JSON.stringify(res.data)` used in error messages. -/
structure HttpMeta where
  status : Nat
  statusText : String
  bodyJson : String
deriving DecidableEq, Repr

/-- The n8n server model: the stored workflow universe (in server list
order) plus the response metadata for each request the helpers can issue. -/
structure N8nEnv where
  workflows : List Workflow
  listResp : Nat → HttpMeta
  readResp : Nat → HttpMeta
  writeResp : Nat → HttpMeta
  createResp : HttpMeta
  createdId : String

/-- `CredentialSummary` as returned by the credential endpoints. -/
structure CredentialSummary where
  id : String
  name : String
  type : String
deriving DecidableEq, Repr

/-- `listWorkflows(auth, limit = 250, offset = 0)`: one page of the
universe, or the thrown error message on status ≥ 400. -/
def listWorkflowsM (env : N8nEnv) (limit : Nat := 250) (offset : Nat := 0) :
    Except String (List Workflow) :=
  let r := env.listResp offset
  if 400 ≤ r.status then
    .error ("listWorkflows failed: " ++ toString r.status ++ " " ++ r.statusText)
  else
    .ok ((env.workflows.drop offset).take limit)

/-- `readWorkflow(auth, id)`: the stored workflow with that id, or the
thrown error message. -/
def readWorkflowM (env : N8nEnv) (id : Nat) : Except String Workflow :=
  let r := env.readResp id
  if 400 ≤ r.status then
    .error ("readWorkflow failed: " ++ toString r.status ++ " " ++ r.statusText)
  else
    match env.workflows.find? (fun wf => wf.id == id) with
    | some wf => .ok wf
    | none => .error "readWorkflow failed: 404 Not Found"

/-- `updateWorkflow(auth, wf)`: full-payload PUT; throws on status ≥ 400
with a message carrying status, status text and response body. -/
def updateWorkflowM (env : N8nEnv) (wf : Workflow) : Except String Unit :=
  let r := env.writeResp wf.id
  if 400 ≤ r.status then
    .error ("updateWorkflow failed: " ++ toString r.status ++ " " ++ r.statusText ++
      " - " ++ r.bodyJson)
  else
    .ok ()

/-- `createGithubApiCredential(auth, { name, accessToken })`: POSTs the new
`githubApi` credential; throws on status ≥ 400 with status, status text and
body; on success the server answers with the created record. -/
def createGithubApiCredentialM (env : N8nEnv) (name accessToken : String) :
    Except String CredentialSummary :=
  let r := env.createResp
  if 400 ≤ r.status then
    .error ("createGithubApiCredential failed: " ++ toString r.status ++ " " ++
      r.statusText ++ " - " ++ r.bodyJson)
  else
    .ok { id := env.createdId, name := name, type := "githubApi" }

/-- One n8n API request issued by the helpers. The write event carries the
full document payload sent in the PUT body. -/
inductive NEvent where
  | listReq (offset : Nat)
  | readReq (id : Nat)
  | writeReq (wf : Workflow)
  | createReq (name : String) (accessToken : String)
deriving DecidableEq, Repr

/-- The documents sent in write (PUT) requests of a trace, in order. -/
def writtenDocs (tr : List NEvent) : List Workflow :=
  tr.filterMap (fun e => match e with | .writeReq wf => some wf | _ => none)

/-- The workflow ids read (GET by id) in a trace, in order. -/
def readIds (tr : List NEvent) : List Nat :=
  tr.filterMap (fun e => match e with | .readReq i => some i | _ => none)

/-- JS record lookup `creds[typeKey]` on the association-list model
(first binding wins, as for a JS object with unique keys). -/
def lookupKey (creds : List (String × CredRef)) (key : String) : Option CredRef :=
  List.lookup key creds

/-- JS record assignment `creds[typeKey] = v`: replace the existing
binding in place, or append a new one. -/
def setKey (creds : List (String × CredRef)) (key : String) (v : CredRef) :
    List (String × CredRef) :=
  match creds with
  | [] => [(key, v)]
  | (k, w) :: rest => if k = key then (key, v) :: rest else (k, w) :: setKey rest key v

/-- `creds[typeKey]?.id === oldCredentialId` for the node `n` (with
`creds = n.credentials ?? {}`). -/
def nodeMatches (old typeKey : String) (n : WfNode) : Bool :=
  match lookupKey (n.credentials.getD []) typeKey with
  | some r => r.id == some old
  | none => false

/-- The per-node body of the rewire loop: on a match, set
`creds[typeKey] = { id: newCredentialId }` and flag the node as touched. -/
def rewireNode (old new typeKey : String) (n : WfNode) : WfNode × Bool :=
  let creds := n.credentials.getD []
  match lookupKey creds typeKey with
  | some r =>
    if r.id == some old then
      ({ n with credentials := some (setKey creds typeKey { id := some new, name := none }) },
        true)
    else (n, false)
  | none => (n, false)

/-- The whole-document effect of the node loop: every node is visited and
`touched` records whether any node matched. -/
def rewireWorkflow (old new typeKey : String) (wf : Workflow) : Workflow × Bool :=
  ({ wf with nodes := wf.nodes.map (fun n => (rewireNode old new typeKey n).1) },
    wf.nodes.any (fun n => (rewireNode old new typeKey n).2))

/-- A document matches when some node references `old` under `typeKey`. -/
def wfMatches (old typeKey : String) (wf : Workflow) : Bool :=
  wf.nodes.any (nodeMatches old typeKey)

/-- The per-page body of `rewireWorkflowsGithubCredential`: read each
summary's workflow, rewire its nodes, and PUT it back iff it was touched,
counting written documents and propagating the first error. -/
def processPage (env : N8nEnv) (old new typeKey : String) :
    List Workflow → Nat → List NEvent → List NEvent × Except String Nat
  | [], count, tr => (tr, .ok count)
  | s :: rest, count, tr =>
    let tr1 := tr ++ [NEvent.readReq s.id]
    match readWorkflowM env s.id with
    | .error e => (tr1, .error e)
    | .ok wf =>
      let wf2 := (rewireWorkflow old new typeKey wf).1
      if (rewireWorkflow old new typeKey wf).2 then
        let tr2 := tr1 ++ [NEvent.writeReq wf2]
        match updateWorkflowM env wf2 with
        | .error e => (tr2, .error e)
        | .ok _ => processPage env old new typeKey rest (count + 1) tr2
      else
        processPage env old new typeKey rest count tr1

/-- The `while (true)` paging loop of `rewireWorkflowsGithubCredential`:
fetch a page of 250 at the current offset, stop on an empty page, process
the page, advance the offset by the page length. `fuel` bounds the number
of iterations; the entry point supplies `env.workflows.length + 1`, which
is proven sufficient (each iteration advances the offset by at least 1). -/
def rewireGo (env : N8nEnv) (old new typeKey : String) :
    Nat → Nat → Nat → List NEvent → List NEvent × Except String Nat
  | 0, _, count, tr => (tr, .ok count)
  | fuel + 1, offset, count, tr =>
    let tr1 := tr ++ [NEvent.listReq offset]
    match listWorkflowsM env 250 offset with
    | .error e => (tr1, .error e)
    | .ok page =>
      if page.isEmpty then (tr1, .ok count)
      else
        match processPage env old new typeKey page count tr1 with
        | (tr2, .error e) => (tr2, .error e)
        | (tr2, .ok count2) => rewireGo env old new typeKey fuel (offset + page.length) count2 tr2

/-- `rewireWorkflowsGithubCredential(auth, { oldCredentialId,
newCredentialId, typeKey })`: the issued request trace together with the
returned count of updated workflows, or the propagated error. -/
def rewireWorkflowsGithubCredentialM (env : N8nEnv) (oldCredentialId newCredentialId : String)
    (typeKey : String := "githubApi") : List NEvent × Except String Nat :=
  rewireGo env oldCredentialId newCredentialId typeKey (env.workflows.length + 1) 0 0 []

/-- The pagination skeleton of the rewire loop (page size 250, offset
cursor advanced by the page length, stop at the first empty page, errors
propagated), applied to pure collection: the code's realization of the
spec's `listAll`. -/
def listAllGo (env : N8nEnv) : Nat → Nat → List Workflow → Except String (List Workflow)
  | 0, _, acc => .ok acc
  | fuel + 1, offset, acc =>
    match listWorkflowsM env 250 offset with
    | .error e => .error e
    | .ok page =>
      if page.isEmpty then .ok acc
      else listAllGo env fuel (offset + page.length) (acc ++ page)

/-- Transparent pagination over the whole document universe. -/
def listAllWorkflowsM (env : N8nEnv) : Except String (List Workflow) :=
  listAllGo env (env.workflows.length + 1) 0 []

theorem lookup_setKey (creds : List (String × CredRef)) (key : String) (v : CredRef) :
    lookupKey (setKey creds key v) key = some v := by
  induction creds with
  | nil => simp [setKey, lookupKey, List.lookup]
  | cons hd t ih =>
    obtain ⟨k, w⟩ := hd
    by_cases hk : k = key
    · subst hk
      simp [setKey, lookupKey, List.lookup]
    · have hk2 : (key == k) = false := beq_eq_false_iff_ne.mpr (fun h => hk h.symm)
      simp only [setKey, if_neg hk, lookupKey, List.lookup, hk2]
      exact ih

theorem rewireNode_snd (old new typeKey : String) (n : WfNode) :
    (rewireNode old new typeKey n).2 = nodeMatches old typeKey n := by
  cases hl : lookupKey (n.credentials.getD []) typeKey with
  | none => simp [rewireNode, nodeMatches, hl]
  | some r =>
    by_cases h : r.id = some old
    · simp [rewireNode, nodeMatches, hl, h]
    · simp [rewireNode, nodeMatches, hl, h]

theorem rewireNode_unmatched (old new typeKey : String) (n : WfNode)
    (h : nodeMatches old typeKey n = false) :
    (rewireNode old new typeKey n).1 = n := by
  cases hl : lookupKey (n.credentials.getD []) typeKey with
  | none => simp [rewireNode, hl]
  | some r =>
    simp only [nodeMatches, hl, beq_eq_false_iff_ne, ne_eq] at h
    simp [rewireNode, hl, h]

theorem rewireNode_matched (old new typeKey : String) (n : WfNode)
    (h : nodeMatches old typeKey n = true) :
    lookupKey (((rewireNode old new typeKey n).1).credentials.getD []) typeKey =
      some { id := some new, name := none } := by
  cases hl : lookupKey (n.credentials.getD []) typeKey with
  | none => simp [nodeMatches, hl] at h
  | some r =>
    simp only [nodeMatches, hl, beq_iff_eq] at h
    simp only [rewireNode, hl, h, beq_self_eq_true, if_true, Option.getD_some]
    exact lookup_setKey _ _ _

theorem rewireNode_frame (old new typeKey : String) (n : WfNode) :
    ((rewireNode old new typeKey n).1).id = n.id ∧
    ((rewireNode old new typeKey n).1).name = n.name ∧
    ((rewireNode old new typeKey n).1).type = n.type ∧
    ((rewireNode old new typeKey n).1).extra = n.extra := by
  cases hl : lookupKey (n.credentials.getD []) typeKey with
  | none => simp [rewireNode, hl]
  | some r =>
    by_cases h : r.id = some old
    · simp [rewireNode, hl, h]
    · simp [rewireNode, hl, h]

theorem rewireWorkflow_nodes (old new typeKey : String) (wf : Workflow) :
    (rewireWorkflow old new typeKey wf).1.nodes =
      wf.nodes.map (fun n => (rewireNode old new typeKey n).1) := rfl

theorem rewireWorkflow_id (old new typeKey : String) (wf : Workflow) :
    (rewireWorkflow old new typeKey wf).1.id = wf.id := rfl

theorem rewireWorkflow_frame (old new typeKey : String) (wf : Workflow) :
    (rewireWorkflow old new typeKey wf).1.name = wf.name ∧
    (rewireWorkflow old new typeKey wf).1.extra = wf.extra := ⟨rfl, rfl⟩

theorem rewireWorkflow_snd (old new typeKey : String) (wf : Workflow) :
    (rewireWorkflow old new typeKey wf).2 = wfMatches old typeKey wf := by
  show wf.nodes.any (fun n => (rewireNode old new typeKey n).2) = _
  unfold wfMatches
  simp only [rewireNode_snd]

/-- C9: when the bulk rewire mutates a matching node, the node's whole
credential reference under the type key is replaced by `{ id: newCredentialId }`:
the identifier is the new one and every other field of the old reference —
in particular its display name — is dropped, not preserved, in the document
that gets written back. -/
theorem rewireNode_replaces_whole_reference (old new typeKey : String) (n : WfNode)
    (h : nodeMatches old typeKey n = true) :
    lookupKey (((rewireNode old new typeKey n).1).credentials.getD []) typeKey =
      some { id := some new, name := none } :=
  rewireNode_matched old new typeKey n h

/-- Witness for C9: a node whose `githubApi` reference has identifier
`"old"` and display name `"GitHub account"`; after the rewire its reference
is exactly `{ id := "new" }` with the display name gone. -/
theorem rewireNode_replaces_whole_reference_witness :
    nodeMatches "old" "githubApi"
      ⟨"n1", "GitHub Node", "n8n-nodes-base.github",
        some [("githubApi", ⟨some "old", some "GitHub account"⟩)], ""⟩ = true ∧
    lookupKey (((rewireNode "old" "new" "githubApi"
      ⟨"n1", "GitHub Node", "n8n-nodes-base.github",
        some [("githubApi", ⟨some "old", some "GitHub account"⟩)], ""⟩).1).credentials.getD [])
      "githubApi" = some { id := some "new", name := none } := by
  refine ⟨by decide, ?_⟩
  exact rewireNode_replaces_whole_reference "old" "new" "githubApi" _ (by decide)

/-- The request events the loop issues for one listed document: a read,
then a write of the rewired payload iff some node matched. -/
def docEvents (old new typeKey : String) (wf : Workflow) : List NEvent :=
  NEvent.readReq wf.id ::
    (if wfMatches old typeKey wf then
      [NEvent.writeReq (rewireWorkflow old new typeKey wf).1]
    else [])

/-- The request events issued while processing a page of documents. -/
def pageEvents (old new typeKey : String) : List Workflow → List NEvent
  | [] => []
  | wf :: rest => docEvents old new typeKey wf ++ pageEvents old new typeKey rest

theorem writtenDocs_append (a b : List NEvent) :
    writtenDocs (a ++ b) = writtenDocs a ++ writtenDocs b := by
  unfold writtenDocs
  exact List.filterMap_append a b _

theorem readIds_append (a b : List NEvent) :
    readIds (a ++ b) = readIds a ++ readIds b := by
  unfold readIds
  exact List.filterMap_append a b _

theorem writtenDocs_pageEvents (old new typeKey : String) (l : List Workflow) :
    writtenDocs (pageEvents old new typeKey l) =
      (l.filter (wfMatches old typeKey)).map
        (fun wf => (rewireWorkflow old new typeKey wf).1) := by
  induction l with
  | nil => rfl
  | cons wf rest ih =>
    rw [pageEvents, writtenDocs_append, ih]
    by_cases h : wfMatches old typeKey wf
    · rw [List.filter_cons_of_pos h, List.map_cons]
      have hd : writtenDocs (docEvents old new typeKey wf) =
          [(rewireWorkflow old new typeKey wf).1] := by
        simp [docEvents, writtenDocs, h]
      rw [hd]
      rfl
    · rw [List.filter_cons_of_neg (by simp [h])]
      have hd : writtenDocs (docEvents old new typeKey wf) = [] := by
        simp [docEvents, writtenDocs, h]
      rw [hd, List.nil_append]

theorem readIds_pageEvents (old new typeKey : String) (l : List Workflow) :
    readIds (pageEvents old new typeKey l) = l.map (fun wf => wf.id) := by
  induction l with
  | nil => rfl
  | cons wf rest ih =>
    rw [pageEvents, readIds_append, ih, List.map_cons]
    have hd : readIds (docEvents old new typeKey wf) = [wf.id] := by
      by_cases h : wfMatches old typeKey wf <;> simp [docEvents, readIds, h]
    rw [hd]
    rfl

theorem find?_id_of_nodup (l : List Workflow) (wf : Workflow)
    (hn : (l.map (fun w => w.id)).Nodup) (hm : wf ∈ l) :
    l.find? (fun w => w.id == wf.id) = some wf := by
  induction l with
  | nil => cases hm
  | cons a t ih =>
    rw [List.map_cons, List.nodup_cons] at hn
    rcases List.mem_cons.mp hm with rfl | hmt
    · rw [List.find?_cons_of_pos _ (by simp)]
    · have hpa : (a.id == wf.id) = false := by
        simp only [beq_eq_false_iff_ne, ne_eq]
        intro he
        exact hn.1 (he ▸ List.mem_map_of_mem (fun w => w.id) hmt)
      rw [List.find?_cons]
      simp only [hpa]
      exact ih hn.2 hmt

theorem readWorkflowM_ok (env : N8nEnv) (wf : Workflow)
    (hn : (env.workflows.map (fun w => w.id)).Nodup) (hm : wf ∈ env.workflows)
    (hr : (env.readResp wf.id).status < 400) :
    readWorkflowM env wf.id = .ok wf := by
  unfold readWorkflowM
  rw [if_neg (Nat.not_le.mpr hr), find?_id_of_nodup env.workflows wf hn hm]

theorem updateWorkflowM_ok (env : N8nEnv) (wf : Workflow)
    (hw : (env.writeResp wf.id).status < 400) :
    updateWorkflowM env wf = .ok () := by
  unfold updateWorkflowM
  rw [if_neg (Nat.not_le.mpr hw)]

theorem processPage_ok (env : N8nEnv) (old new typeKey : String)
    (hn : (env.workflows.map (fun w => w.id)).Nodup) :
    ∀ (l : List Workflow) (count : Nat) (tr : List NEvent),
      (∀ wf ∈ l, wf ∈ env.workflows) →
      (∀ wf ∈ l, (env.readResp wf.id).status < 400) →
      (∀ wf ∈ l, wfMatches old typeKey wf = true → (env.writeResp wf.id).status < 400) →
      processPage env old new typeKey l count tr =
        (tr ++ pageEvents old new typeKey l,
          .ok (count + (l.filter (wfMatches old typeKey)).length))
  | [], count, tr, _, _, _ => by simp [processPage, pageEvents]
  | s :: rest, count, tr, hsub, hread, hwrite => by
    have hs : s ∈ env.workflows := hsub s (List.mem_cons_self s rest)
    have hro := hread s (List.mem_cons_self s rest)
    simp only [processPage, readWorkflowM_ok env s hn hs hro, rewireWorkflow_snd]
    by_cases hm : wfMatches old typeKey s
    · simp only [hm, if_true]
      rw [updateWorkflowM_ok env _ (by rw [rewireWorkflow_id]; exact hwrite s (List.mem_cons_self s rest) hm)]
      rw [processPage_ok env old new typeKey hn rest (count + 1)
        (tr ++ [NEvent.readReq s.id] ++ [NEvent.writeReq (rewireWorkflow old new typeKey s).1])
        (fun wf h => hsub wf (List.mem_cons_of_mem s h))
        (fun wf h => hread wf (List.mem_cons_of_mem s h))
        (fun wf h => hwrite wf (List.mem_cons_of_mem s h))]
      simp only [Prod.mk.injEq]
      constructor
      · simp [pageEvents, docEvents, hm, List.append_assoc]
      · rw [List.filter_cons_of_pos hm]
        simp only [List.length_cons]
        congr 1
        omega
    · simp only [hm, if_false, Bool.false_eq_true]
      rw [processPage_ok env old new typeKey hn rest count
        (tr ++ [NEvent.readReq s.id])
        (fun wf h => hsub wf (List.mem_cons_of_mem s h))
        (fun wf h => hread wf (List.mem_cons_of_mem s h))
        (fun wf h => hwrite wf (List.mem_cons_of_mem s h))]
      simp only [Prod.mk.injEq]
      constructor
      · simp [pageEvents, docEvents, hm, List.append_assoc]
      · rw [List.filter_cons_of_neg (by simp [hm])]

theorem drop_take_length {α : Type} (m : List α) (n : Nat) :
    m.drop ((m.take n).length) = m.drop n := by
  rw [List.length_take]
  rcases Nat.le_total n m.length with h | h
  · rw [Nat.min_eq_left h]
  · rw [Nat.min_eq_right h, List.drop_length, List.drop_eq_nil_of_le h]

theorem listWorkflowsM_ok (env : N8nEnv) (limit offset : Nat)
    (h : (env.listResp offset).status < 400) :
    listWorkflowsM env limit offset = .ok ((env.workflows.drop offset).take limit) := by
  unfold listWorkflowsM
  rw [if_neg (Nat.not_le.mpr h)]

theorem rewireGo_ok (env : N8nEnv) (old new typeKey : String)
    (hn : (env.workflows.map (fun w => w.id)).Nodup)
    (hl : ∀ o, (env.listResp o).status < 400)
    (hread : ∀ i, (env.readResp i).status < 400)
    (hwrite : ∀ i, (env.writeResp i).status < 400) :
    ∀ (fuel offset count : Nat) (tr : List NEvent),
      env.workflows.length - offset < fuel →
      ∃ tr2,
        rewireGo env old new typeKey fuel offset count tr =
          (tr ++ tr2,
            .ok (count + ((env.workflows.drop offset).filter (wfMatches old typeKey)).length)) ∧
        writtenDocs tr2 =
          ((env.workflows.drop offset).filter (wfMatches old typeKey)).map
            (fun wf => (rewireWorkflow old new typeKey wf).1)
  | 0, offset, count, tr, hfuel => absurd hfuel (Nat.not_lt_zero _)
  | fuel + 1, offset, count, tr, hfuel => by
    have hlw := listWorkflowsM_ok env 250 offset (hl offset)
    by_cases hpage : ((env.workflows.drop offset).take 250).isEmpty
    · have hdrop : env.workflows.drop offset = [] := by
        rcases List.take_eq_nil_iff.mp (List.isEmpty_iff.mp hpage) with h | h
        · omega
        · exact h
      refine ⟨[NEvent.listReq offset], ?_, by rw [hdrop]; rfl⟩
      simp only [rewireGo, hlw, hpage, if_true]
      rw [hdrop]
      simp
    · have hproc := processPage_ok env old new typeKey hn
        ((env.workflows.drop offset).take 250) count (tr ++ [NEvent.listReq offset])
        (fun wf h => List.mem_of_mem_drop (List.mem_of_mem_take h))
        (fun wf _ => hread wf.id)
        (fun wf _ _ => hwrite wf.id)
      have hplen : ((env.workflows.drop offset).take 250).length =
          min 250 (env.workflows.length - offset) := by
        rw [List.length_take, List.length_drop]
      have hpos : 0 < ((env.workflows.drop offset).take 250).length := by
        apply List.length_pos.mpr
        intro h
        rw [h] at hpage
        simp at hpage
      obtain ⟨tr3, heq3, hw3⟩ := rewireGo_ok env old new typeKey hn hl hread hwrite
        fuel (offset + ((env.workflows.drop offset).take 250).length)
        (count + (((env.workflows.drop offset).take 250).filter (wfMatches old typeKey)).length)
        ((tr ++ [NEvent.listReq offset]) ++
          pageEvents old new typeKey ((env.workflows.drop offset).take 250))
        (by omega)
      have hdd : env.workflows.drop (offset + ((env.workflows.drop offset).take 250).length) =
          (env.workflows.drop offset).drop 250 := by
        rw [← List.drop_drop, drop_take_length]
      have hsplit : env.workflows.drop offset =
          (env.workflows.drop offset).take 250 ++ (env.workflows.drop offset).drop 250 :=
        (List.take_append_drop 250 _).symm
      refine ⟨[NEvent.listReq offset] ++
        pageEvents old new typeKey ((env.workflows.drop offset).take 250) ++ tr3, ?_, ?_⟩
      · simp only [rewireGo, hlw, hpage, if_false, Bool.false_eq_true, hproc, heq3, hdd,
          Prod.mk.injEq]
        constructor
        · simp [List.append_assoc]
        · congr 1
          conv_rhs => rw [hsplit]
          rw [List.filter_append, List.length_append]
          omega
      · rw [writtenDocs_append, writtenDocs_append, writtenDocs_pageEvents, hw3, hdd]
        have hnil : writtenDocs [NEvent.listReq offset] = [] := rfl
        rw [hnil, List.nil_append]
        conv_rhs => rw [hsplit]
        rw [List.filter_append, List.map_append]

/-- C1: on a fault-free server with distinct workflow ids, the bulk rewire
writes back exactly the documents that contain at least one node whose
credential reference under the type key has identifier `old`; each written
payload is the node-wise rewrite in which every matching node's reference
identifier becomes the new credential identifier while non-matching nodes
are untouched; the returned count equals the number of documents written
(not nodes); and when zero documents match, the count is 0 and zero write
requests are issued. -/
theorem rewire_writes_exactly_matching_documents (env : N8nEnv) (old new typeKey : String)
    (hn : (env.workflows.map (fun w => w.id)).Nodup)
    (hl : ∀ o, (env.listResp o).status < 400)
    (hread : ∀ i, (env.readResp i).status < 400)
    (hwrite : ∀ i, (env.writeResp i).status < 400) :
    ∃ tr,
      rewireWorkflowsGithubCredentialM env old new typeKey =
        (tr, .ok (((env.workflows.filter (wfMatches old typeKey)).map
          (fun wf => (rewireWorkflow old new typeKey wf).1)).length)) ∧
      writtenDocs tr =
        (env.workflows.filter (wfMatches old typeKey)).map
          (fun wf => (rewireWorkflow old new typeKey wf).1) ∧
      (∀ n, nodeMatches old typeKey n = false → (rewireNode old new typeKey n).1 = n) ∧
      (∀ n, nodeMatches old typeKey n = true →
        (lookupKey (((rewireNode old new typeKey n).1).credentials.getD []) typeKey).map
          (fun r => r.id) = some (some new)) ∧
      (∀ wf, (rewireWorkflow old new typeKey wf).1.nodes =
        wf.nodes.map (fun n => (rewireNode old new typeKey n).1)) ∧
      ((∀ wf ∈ env.workflows, wfMatches old typeKey wf = false) →
        writtenDocs tr = [] ∧
          (rewireWorkflowsGithubCredentialM env old new typeKey).2 = .ok 0) := by
  obtain ⟨tr2, heq, hw⟩ := rewireGo_ok env old new typeKey hn hl hread hwrite
    (env.workflows.length + 1) 0 0 [] (by omega)
  rw [List.drop_zero] at heq hw
  refine ⟨tr2, ?_, hw, ?_, ?_, ?_, ?_⟩
  · show rewireGo env old new typeKey (env.workflows.length + 1) 0 0 [] = _
    rw [heq, List.nil_append, Nat.zero_add, List.length_map]
  · exact fun n h => rewireNode_unmatched old new typeKey n h
  · intro n h
    rw [rewireNode_matched old new typeKey n h]
    rfl
  · exact fun wf => rewireWorkflow_nodes old new typeKey wf
  · intro hall
    have hfil : env.workflows.filter (wfMatches old typeKey) = [] := by
      rw [List.filter_eq_nil_iff]
      intro wf hm
      simp [hall wf hm]
    constructor
    · rw [hw, hfil]
      rfl
    · show (rewireGo env old new typeKey (env.workflows.length + 1) 0 0 []).2 = _
      rw [heq, hfil]
      rfl

/-- The server of the C1 witness: two stored workflows, one referencing
`old-cred` under `githubApi` and one referencing a different credential;
every request succeeds. -/
def envC1 : N8nEnv where
  workflows :=
    [⟨1, "WF A",
      [⟨"n1", "GitHub Node 1", "n8n-nodes-base.github",
        some [("githubApi", ⟨some "old-cred", none⟩)], ""⟩,
       ⟨"n2", "Other Node", "n8n-nodes-base.httpRequest", none, ""⟩], ""⟩,
     ⟨2, "WF B",
      [⟨"n3", "GitHub Node 2", "n8n-nodes-base.github",
        some [("githubApi", ⟨some "some-other", none⟩)], ""⟩], ""⟩]
  listResp := fun _ => ⟨200, "OK", ""⟩
  readResp := fun _ => ⟨200, "OK", ""⟩
  writeResp := fun _ => ⟨200, "OK", ""⟩
  createResp := ⟨200, "OK", ""⟩
  createdId := "99"

/-- Witness for C1: on `envC1` the rewire returns count 1 and writes back
exactly the first workflow, with node `n1` rewired to `new-cred` and the
unrelated node untouched. -/
theorem rewire_writes_exactly_matching_documents_witness :
    (rewireWorkflowsGithubCredentialM envC1 "old-cred" "new-cred" "githubApi").2 = .ok 1 ∧
    writtenDocs (rewireWorkflowsGithubCredentialM envC1 "old-cred" "new-cred" "githubApi").1 =
      [⟨1, "WF A",
        [⟨"n1", "GitHub Node 1", "n8n-nodes-base.github",
          some [("githubApi", ⟨some "new-cred", none⟩)], ""⟩,
         ⟨"n2", "Other Node", "n8n-nodes-base.httpRequest", none, ""⟩], ""⟩] := by
  obtain ⟨tr, h1, h2, -, -, -, -⟩ :=
    rewire_writes_exactly_matching_documents envC1 "old-cred" "new-cred" "githubApi"
      (by decide) (by intro o; show 200 < 400; decide)
      (by intro i; show 200 < 400; decide) (by intro i; show 200 < 400; decide)
  have hlen : ((envC1.workflows.filter (wfMatches "old-cred" "githubApi")).map
      (fun wf => (rewireWorkflow "old-cred" "new-cred" "githubApi" wf).1)).length = 1 := by rfl
  constructor
  · rw [h1]
    show Except.ok _ = _
    rw [hlen]
  · rw [h1]
    show writtenDocs tr = _
    rw [h2]
    rfl

/-- The message with which a failing PUT of document `wf` is thrown. -/
def writeErrorMsg (env : N8nEnv) (wf : Workflow) : String :=
  "updateWorkflow failed: " ++ toString (env.writeResp wf.id).status ++ " " ++
    (env.writeResp wf.id).statusText ++ " - " ++ (env.writeResp wf.id).bodyJson

theorem updateWorkflowM_error (env : N8nEnv) (wf bad : Workflow)
    (hid : wf.id = bad.id) (hbw : 400 ≤ (env.writeResp bad.id).status) :
    updateWorkflowM env wf = .error (writeErrorMsg env bad) := by
  unfold updateWorkflowM writeErrorMsg
  rw [hid, if_pos hbw]

theorem processPage_write_error (env : N8nEnv) (old new typeKey : String)
    (hn : (env.workflows.map (fun w => w.id)).Nodup)
    (bad : Workflow)
    (hbadmem : bad ∈ env.workflows)
    (hbadro : (env.readResp bad.id).status < 400)
    (hbm : wfMatches old typeKey bad = true)
    (hbw : 400 ≤ (env.writeResp bad.id).status) :
    ∀ (pre rest : List Workflow) (count : Nat) (tr : List NEvent),
      (∀ wf ∈ pre, wf ∈ env.workflows) →
      (∀ wf ∈ pre, (env.readResp wf.id).status < 400) →
      (∀ wf ∈ pre, wfMatches old typeKey wf = true → (env.writeResp wf.id).status < 400) →
      processPage env old new typeKey (pre ++ bad :: rest) count tr =
        (tr ++ pageEvents old new typeKey pre ++
          [NEvent.readReq bad.id, NEvent.writeReq (rewireWorkflow old new typeKey bad).1],
          .error (writeErrorMsg env bad))
  | [], rest, count, tr, _, _, _ => by
    simp only [List.nil_append, processPage,
      readWorkflowM_ok env bad hn hbadmem hbadro, rewireWorkflow_snd, hbm, if_true]
    rw [updateWorkflowM_error env _ bad (rewireWorkflow_id old new typeKey bad) hbw]
    simp [pageEvents, List.append_assoc]
  | s :: pre, rest, count, tr, hsub, hread, hwrite => by
    have hs : s ∈ env.workflows := hsub s (List.mem_cons_self _ _)
    simp only [List.cons_append, List.append_eq, processPage,
      readWorkflowM_ok env s hn hs (hread s (List.mem_cons_self _ _)), rewireWorkflow_snd]
    by_cases hm : wfMatches old typeKey s
    · simp only [hm, if_true]
      rw [updateWorkflowM_ok env _
        (by rw [rewireWorkflow_id]; exact hwrite s (List.mem_cons_self _ _) hm)]
      rw [processPage_write_error env old new typeKey hn bad hbadmem hbadro hbm hbw
        pre rest (count + 1)
        (tr ++ [NEvent.readReq s.id] ++ [NEvent.writeReq (rewireWorkflow old new typeKey s).1])
        (fun wf h => hsub wf (List.mem_cons_of_mem s h))
        (fun wf h => hread wf (List.mem_cons_of_mem s h))
        (fun wf h => hwrite wf (List.mem_cons_of_mem s h))]
      simp [pageEvents, docEvents, hm, List.append_assoc]
    · simp only [hm, if_false, Bool.false_eq_true]
      rw [processPage_write_error env old new typeKey hn bad hbadmem hbadro hbm hbw
        pre rest count (tr ++ [NEvent.readReq s.id])
        (fun wf h => hsub wf (List.mem_cons_of_mem s h))
        (fun wf h => hread wf (List.mem_cons_of_mem s h))
        (fun wf h => hwrite wf (List.mem_cons_of_mem s h))]
      simp [pageEvents, docEvents, hm, List.append_assoc]

theorem rewireGo_write_error (env : N8nEnv) (old new typeKey : String)
    (hn : (env.workflows.map (fun w => w.id)).Nodup)
    (hl : ∀ o, (env.listResp o).status < 400)
    (hread : ∀ i, (env.readResp i).status < 400)
    (bad : Workflow)
    (hbm : wfMatches old typeKey bad = true)
    (hbw : 400 ≤ (env.writeResp bad.id).status) :
    ∀ (fuel offset count : Nat) (tr : List NEvent) (pre rest : List Workflow),
      env.workflows.drop offset = pre ++ bad :: rest →
      (∀ wf ∈ pre, wfMatches old typeKey wf = true → (env.writeResp wf.id).status < 400) →
      env.workflows.length - offset < fuel →
      ∃ tr2,
        rewireGo env old new typeKey fuel offset count tr =
          (tr ++ tr2, .error (writeErrorMsg env bad)) ∧
        writtenDocs tr2 =
          (pre.filter (wfMatches old typeKey)).map
            (fun wf => (rewireWorkflow old new typeKey wf).1) ++
          [(rewireWorkflow old new typeKey bad).1] ∧
        readIds tr2 = pre.map (fun w => w.id) ++ [bad.id]
  | 0, offset, count, tr, pre, rest, hdrop, hwpre, hfuel => absurd hfuel (Nat.not_lt_zero _)
  | fuel + 1, offset, count, tr, pre, rest, hdrop, hwpre, hfuel => by
    have hlw := listWorkflowsM_ok env 250 offset (hl offset)
    have hbadmem : bad ∈ env.workflows := by
      apply List.mem_of_mem_drop (n := offset)
      rw [hdrop]
      exact List.mem_append_right _ (List.mem_cons_self _ _)
    have hpremem : ∀ wf ∈ pre, wf ∈ env.workflows := by
      intro wf h
      apply List.mem_of_mem_drop (n := offset)
      rw [hdrop]
      exact List.mem_append_left _ h
    have hlendrop : env.workflows.length - offset = pre.length + rest.length + 1 := by
      have hld := congrArg List.length hdrop
      rw [List.length_drop, List.length_append, List.length_cons] at hld
      omega
    by_cases hc : pre.length < 250
    · have hpage : (env.workflows.drop offset).take 250 =
          pre ++ bad :: rest.take (250 - pre.length - 1) := by
        rw [hdrop, List.take_append_eq_append_take,
          List.take_of_length_le (Nat.le_of_lt hc)]
        congr 1
        have h1 : 250 - pre.length = (250 - pre.length - 1) + 1 := by omega
        rw [h1, List.take_succ_cons]
        simp
      have hne : ¬ ((env.workflows.drop offset).take 250).isEmpty = true := by
        rw [hpage]
        simp [List.isEmpty_iff]
      have hproc := processPage_write_error env old new typeKey hn bad hbadmem
        (hread bad.id) hbm hbw pre (rest.take (250 - pre.length - 1)) count
        (tr ++ [NEvent.listReq offset]) hpremem
        (fun wf _ => hread wf.id) hwpre
      refine ⟨[NEvent.listReq offset] ++ pageEvents old new typeKey pre ++
        [NEvent.readReq bad.id, NEvent.writeReq (rewireWorkflow old new typeKey bad).1],
        ?_, ?_, ?_⟩
      · simp only [rewireGo, hlw, hne, if_false, Bool.false_eq_true, hpage, hproc]
        simp [List.append_assoc]
      · rw [writtenDocs_append, writtenDocs_append, writtenDocs_pageEvents]
        have h1 : writtenDocs [NEvent.listReq offset] = [] := rfl
        have h2 : writtenDocs [NEvent.readReq bad.id,
            NEvent.writeReq (rewireWorkflow old new typeKey bad).1] =
            [(rewireWorkflow old new typeKey bad).1] := rfl
        rw [h1, h2, List.nil_append]
      · rw [readIds_append, readIds_append, readIds_pageEvents]
        have h1 : readIds [NEvent.listReq offset] = [] := rfl
        have h2 : readIds [NEvent.readReq bad.id,
            NEvent.writeReq (rewireWorkflow old new typeKey bad).1] = [bad.id] := rfl
        rw [h1, h2, List.nil_append]
    · have hple : 250 ≤ pre.length := Nat.le_of_not_lt hc
      have hpage : (env.workflows.drop offset).take 250 = pre.take 250 := by
        rw [hdrop, List.take_append_eq_append_take, Nat.sub_eq_zero_of_le hple]
        simp
      have hptl : (pre.take 250).length = 250 := by
        rw [List.length_take]
        omega
      have hne : ¬ ((env.workflows.drop offset).take 250).isEmpty = true := by
        rw [hpage]
        intro h
        have hleq := congrArg List.length (List.isEmpty_iff.mp h)
        rw [hptl] at hleq
        simp at hleq
      have hproc := processPage_ok env old new typeKey hn (pre.take 250) count
        (tr ++ [NEvent.listReq offset])
        (fun wf h => hpremem wf (List.mem_of_mem_take h))
        (fun wf _ => hread wf.id)
        (fun wf h hm => hwpre wf (List.mem_of_mem_take h) hm)
      have hdropnext : env.workflows.drop (offset + 250) = pre.drop 250 ++ bad :: rest := by
        have hdd : env.workflows.drop (offset + 250) = (env.workflows.drop offset).drop 250 := by
          rw [← List.drop_drop]
        rw [hdd, hdrop, List.drop_append_eq_append_drop, Nat.sub_eq_zero_of_le hple,
          List.drop_zero]
      obtain ⟨tr3, heq3, hw3, hr3⟩ := rewireGo_write_error env old new typeKey hn hl hread
        bad hbm hbw fuel (offset + 250)
        (count + ((pre.take 250).filter (wfMatches old typeKey)).length)
        ((tr ++ [NEvent.listReq offset]) ++ pageEvents old new typeKey (pre.take 250))
        (pre.drop 250) rest hdropnext
        (fun wf h => hwpre wf (List.mem_of_mem_drop h))
        (by omega)
      refine ⟨[NEvent.listReq offset] ++ pageEvents old new typeKey (pre.take 250) ++ tr3,
        ?_, ?_, ?_⟩
      · simp only [rewireGo, hlw, hne, if_false, Bool.false_eq_true, hpage, hproc, hptl, heq3]
        simp [List.append_assoc]
        intro hpre0
        rw [hpre0] at hple
        simp at hple
      · rw [writtenDocs_append, writtenDocs_append, writtenDocs_pageEvents, hw3]
        have h1 : writtenDocs [NEvent.listReq offset] = [] := rfl
        rw [h1, List.nil_append]
        conv_rhs => rw [← List.take_append_drop 250 pre]
        rw [List.filter_append, List.map_append, List.append_assoc]
      · rw [readIds_append, readIds_append, readIds_pageEvents, hr3]
        have h1 : readIds [NEvent.listReq offset] = [] := rfl
        rw [h1, List.nil_append]
        conv_rhs => rw [← List.take_append_drop 250 pre]
        rw [List.map_append, List.append_assoc]

/-- The documents of a trace whose write (PUT) requests the server answered
with a success status. -/
def successfulWrites (env : N8nEnv) (tr : List NEvent) : List Workflow :=
  (writtenDocs tr).filter (fun wf => (env.writeResp wf.id).status < 400)

/-- C2 (amended): if, during a bulk rewire over `pre ++ bad :: rest`, the
write of `bad` fails with status ≥ 400 while everything before succeeds,
the failure propagates immediately as the thrown `updateWorkflow` error
(status, status text and body — it is not swallowed), no document after the
failing one is read or written, and the documents successfully written
before the fault are exactly the matching documents of `pre`; the error
value itself, however, carries no count. -/
theorem rewire_write_failure_propagates (env : N8nEnv) (old new typeKey : String)
    (pre rest : List Workflow) (bad : Workflow)
    (hu : env.workflows = pre ++ bad :: rest)
    (hn : (env.workflows.map (fun w => w.id)).Nodup)
    (hl : ∀ o, (env.listResp o).status < 400)
    (hread : ∀ i, (env.readResp i).status < 400)
    (hwpre : ∀ wf ∈ pre, wfMatches old typeKey wf = true → (env.writeResp wf.id).status < 400)
    (hbm : wfMatches old typeKey bad = true)
    (hbw : 400 ≤ (env.writeResp bad.id).status) :
    ∃ tr,
      rewireWorkflowsGithubCredentialM env old new typeKey =
        (tr, .error (writeErrorMsg env bad)) ∧
      writtenDocs tr =
        (pre.filter (wfMatches old typeKey)).map
          (fun wf => (rewireWorkflow old new typeKey wf).1) ++
        [(rewireWorkflow old new typeKey bad).1] ∧
      readIds tr = pre.map (fun w => w.id) ++ [bad.id] ∧
      (writtenDocs tr).dropLast =
        (pre.filter (wfMatches old typeKey)).map
          (fun wf => (rewireWorkflow old new typeKey wf).1) := by
  obtain ⟨tr2, heq, hw, hr⟩ := rewireGo_write_error env old new typeKey hn hl hread
    bad hbm hbw (env.workflows.length + 1) 0 0 [] pre rest
    (by rw [List.drop_zero]; exact hu) hwpre (by omega)
  refine ⟨tr2, ?_, hw, hr, ?_⟩
  · show rewireGo env old new typeKey (env.workflows.length + 1) 0 0 [] = _
    rw [heq, List.nil_append]
  · rw [hw]
    exact List.dropLast_concat

/-- A matching document whose write will succeed (id 1). -/
def wfC2good : Workflow :=
  ⟨1, "WF OK",
    [⟨"n1", "GitHub Node 1", "n8n-nodes-base.github",
      some [("githubApi", ⟨some "old-cred", none⟩)], ""⟩], ""⟩

/-- A matching document whose write will fail (id 2). -/
def wfC2bad : Workflow :=
  ⟨2, "WF BAD",
    [⟨"n2", "GitHub Node 2", "n8n-nodes-base.github",
      some [("githubApi", ⟨some "old-cred", none⟩)], ""⟩], ""⟩

/-- Server holding only the failing document; its PUT answers 500. -/
def envC2a : N8nEnv where
  workflows := [wfC2bad]
  listResp := fun _ => ⟨200, "OK", ""⟩
  readResp := fun _ => ⟨200, "OK", ""⟩
  writeResp := fun _ => ⟨500, "Internal Server Error", "\x7b\x7d"⟩
  createResp := ⟨200, "OK", ""⟩
  createdId := "99"

/-- Server holding a succeeding document before the failing one. -/
def envC2b : N8nEnv where
  workflows := [wfC2good, wfC2bad]
  listResp := fun _ => ⟨200, "OK", ""⟩
  readResp := fun _ => ⟨200, "OK", ""⟩
  writeResp := fun i =>
    if i == 2 then ⟨500, "Internal Server Error", "\x7b\x7d"⟩ else ⟨200, "OK", ""⟩
  createResp := ⟨200, "OK", ""⟩
  createdId := "99"

/-- C2 counterexample: two rewire runs fail with the very same error value
while the number of documents successfully written before the fault differs
(0 versus 1). The propagated error thus does not surface the partial count
to the caller: no inspection of what reaches the caller can recover how far
reconciliation progressed. -/
theorem rewire_write_failure_count_not_surfaced :
    (rewireWorkflowsGithubCredentialM envC2a "old-cred" "new-cred" "githubApi").2 =
      .error "updateWorkflow failed: 500 Internal Server Error - \x7b\x7d" ∧
    (rewireWorkflowsGithubCredentialM envC2b "old-cred" "new-cred" "githubApi").2 =
      .error "updateWorkflow failed: 500 Internal Server Error - \x7b\x7d" ∧
    (successfulWrites envC2a
      (rewireWorkflowsGithubCredentialM envC2a "old-cred" "new-cred" "githubApi").1).length = 0 ∧
    (successfulWrites envC2b
      (rewireWorkflowsGithubCredentialM envC2b "old-cred" "new-cred" "githubApi").1).length = 1 := by
  refine ⟨?_, ?_, ?_, ?_⟩ <;> rfl

/-- Witness for C2 (amended) on `envC2b`: the run fails with the write error
of document 2, reads exactly documents 1 and 2 (none after the failure),
and the successfully written documents before the fault are exactly the
rewired document 1. -/
theorem rewire_write_failure_propagates_witness :
    (rewireWorkflowsGithubCredentialM envC2b "old-cred" "new-cred" "githubApi").2 =
      .error (writeErrorMsg envC2b wfC2bad) ∧
    readIds (rewireWorkflowsGithubCredentialM envC2b "old-cred" "new-cred" "githubApi").1 =
      [1, 2] ∧
    (writtenDocs
      (rewireWorkflowsGithubCredentialM envC2b "old-cred" "new-cred" "githubApi").1).dropLast =
      [(rewireWorkflow "old-cred" "new-cred" "githubApi" wfC2good).1] := by
  obtain ⟨tr, h1, h2, h3, h4⟩ :=
    rewire_write_failure_propagates envC2b "old-cred" "new-cred" "githubApi"
      [wfC2good] [] wfC2bad rfl (by decide)
      (by intro o; show 200 < 400; decide) (by intro i; show 200 < 400; decide)
      (by
        intro wf hwf hm
        have hwfe : wf = wfC2good := by simpa using hwf
        rw [hwfe]
        decide)
      (by decide) (by decide)
  refine ⟨?_, ?_, ?_⟩
  · rw [h1]
  · rw [h1]
    show readIds tr = _
    rw [h3]
    rfl
  · rw [h1]
    show (writtenDocs tr).dropLast = _
    rw [h4]
    rfl

theorem listAllGo_ok (env : N8nEnv) (hl : ∀ o, (env.listResp o).status < 400) :
    ∀ (fuel offset : Nat) (acc : List Workflow),
      env.workflows.length - offset < fuel →
      listAllGo env fuel offset acc = .ok (acc ++ env.workflows.drop offset)
  | 0, offset, acc, hfuel => absurd hfuel (Nat.not_lt_zero _)
  | fuel + 1, offset, acc, hfuel => by
    have hlw := listWorkflowsM_ok env 250 offset (hl offset)
    by_cases hpage : ((env.workflows.drop offset).take 250).isEmpty
    · have hdrop : env.workflows.drop offset = [] := by
        rcases List.take_eq_nil_iff.mp (List.isEmpty_iff.mp hpage) with h | h
        · omega
        · exact h
      simp only [listAllGo, hlw, hpage, if_true]
      rw [hdrop, List.append_nil]
    · have hpos : 0 < ((env.workflows.drop offset).take 250).length := by
        apply List.length_pos.mpr
        intro h
        rw [h] at hpage
        simp at hpage
      have hplen : ((env.workflows.drop offset).take 250).length =
          min 250 (env.workflows.length - offset) := by
        rw [List.length_take, List.length_drop]
      have hrec := listAllGo_ok env hl fuel
        (offset + ((env.workflows.drop offset).take 250).length)
        (acc ++ (env.workflows.drop offset).take 250) (by omega)
      simp only [listAllGo, hlw, hpage, if_false, Bool.false_eq_true, hrec]
      have hdd : env.workflows.drop
          (offset + ((env.workflows.drop offset).take 250).length) =
          (env.workflows.drop offset).drop 250 := by
        rw [← List.drop_drop, drop_take_length]
      rw [hdd, List.append_assoc, List.take_append_drop]

theorem listAllGo_error (env : N8nEnv) (v : Nat)
    (hv : 400 ≤ (env.listResp v).status)
    (hvle : v ≤ env.workflows.length)
    (hvshape : 250 ∣ v ∨ v = env.workflows.length)
    (hprev : ∀ o, 250 ∣ o → o < v → (env.listResp o).status < 400) :
    ∀ (fuel offset : Nat) (acc : List Workflow),
      env.workflows.length - offset < fuel →
      (250 ∣ offset ∨ offset = v) → offset ≤ v →
      listAllGo env fuel offset acc =
        .error ("listWorkflows failed: " ++ toString (env.listResp v).status ++ " " ++
          (env.listResp v).statusText)
  | 0, offset, acc, hfuel, _, _ => absurd hfuel (Nat.not_lt_zero _)
  | fuel + 1, offset, acc, hfuel, hinv, hle => by
    by_cases heqv : offset = v
    · subst heqv
      have hfail : listWorkflowsM env 250 offset =
          .error ("listWorkflows failed: " ++ toString (env.listResp offset).status ++ " " ++
            (env.listResp offset).statusText) := by
        unfold listWorkflowsM
        rw [if_pos hv]
      simp only [listAllGo, hfail]
    · have hdvd : 250 ∣ offset := by
        rcases hinv with h | h
        · exact h
        · exact absurd h heqv
      have hlt : offset < v := Nat.lt_of_le_of_ne hle heqv
      have hlw := listWorkflowsM_ok env 250 offset (hprev offset hdvd hlt)
      have hlenpos : offset < env.workflows.length := Nat.lt_of_lt_of_le hlt hvle
      have hpagene : ¬ ((env.workflows.drop offset).take 250).isEmpty = true := by
        intro h
        rcases List.take_eq_nil_iff.mp (List.isEmpty_iff.mp h) with h1 | h1
        · omega
        · have h2 := congrArg List.length h1
          rw [List.length_drop] at h2
          simp at h2
          omega
      have hplen : ((env.workflows.drop offset).take 250).length =
          min 250 (env.workflows.length - offset) := by
        rw [List.length_take, List.length_drop]
      have hpos : 0 < ((env.workflows.drop offset).take 250).length := by
        apply List.length_pos.mpr
        intro h
        rw [h] at hpagene
        simp at hpagene
      have hnextinv : (250 ∣ (offset + ((env.workflows.drop offset).take 250).length) ∨
          offset + ((env.workflows.drop offset).take 250).length = v) ∧
          offset + ((env.workflows.drop offset).take 250).length ≤ v := by
        rcases hvshape with hdvdv | hveq
        · constructor
          · left
            have h250 : ((env.workflows.drop offset).take 250).length = 250 := by omega
            rw [h250]
            omega
          · omega
        · constructor
          · rcases Nat.le_total 250 (env.workflows.length - offset) with hbig | hsmall
            · left
              have h250 : ((env.workflows.drop offset).take 250).length = 250 := by omega
              rw [h250]
              omega
            · right
              omega
          · omega
      have hrec := listAllGo_error env v hv hvle hvshape hprev fuel
        (offset + ((env.workflows.drop offset).take 250).length)
        (acc ++ (env.workflows.drop offset).take 250)
        (by omega) hnextinv.1 hnextinv.2
      simp only [listAllGo, hlw, hpagene, if_false, Bool.false_eq_true, hrec]

/-- C8: listing all documents paginates with a fixed page size of 250 and
an offset cursor advanced by the returned page length, requesting until an
empty page: on a fault-free server the concatenation of the pages equals
the server's document sequence in order (so it has no duplicates whenever
the universe has none), and any reachable page request answered with a
status ≥ 400 raises the `listWorkflows` error. -/
theorem listAll_paginates_and_propagates_errors (env : N8nEnv) :
    ((∀ o, (env.listResp o).status < 400) →
      listAllWorkflowsM env = .ok env.workflows ∧
      (env.workflows.Nodup → ∃ l, listAllWorkflowsM env = .ok l ∧ l.Nodup)) ∧
    (∀ v, 400 ≤ (env.listResp v).status → v ≤ env.workflows.length →
      (250 ∣ v ∨ v = env.workflows.length) →
      (∀ o, 250 ∣ o → o < v → (env.listResp o).status < 400) →
      listAllWorkflowsM env =
        .error ("listWorkflows failed: " ++ toString (env.listResp v).status ++ " " ++
          (env.listResp v).statusText)) := by
  constructor
  · intro hl
    have h := listAllGo_ok env hl (env.workflows.length + 1) 0 [] (by omega)
    rw [List.drop_zero, List.nil_append] at h
    exact ⟨h, fun hnd => ⟨env.workflows, h, hnd⟩⟩
  · intro v hv hvle hvshape hprev
    exact listAllGo_error env v hv hvle hvshape hprev (env.workflows.length + 1) 0 []
      (by omega) (Or.inl ⟨0, rfl⟩) (Nat.zero_le v)

/-- A three-document server on which every list request succeeds. -/
def envC8 : N8nEnv where
  workflows := [⟨1, "WF A", [], ""⟩, ⟨2, "WF B", [], ""⟩, ⟨3, "WF C", [], ""⟩]
  listResp := fun _ => ⟨200, "OK", ""⟩
  readResp := fun _ => ⟨200, "OK", ""⟩
  writeResp := fun _ => ⟨200, "OK", ""⟩
  createResp := ⟨200, "OK", ""⟩
  createdId := "99"

/-- The same server with the page request at offset 0 failing with 500. -/
def envC8err : N8nEnv where
  workflows := [⟨1, "WF A", [], ""⟩, ⟨2, "WF B", [], ""⟩, ⟨3, "WF C", [], ""⟩]
  listResp := fun _ => ⟨500, "Internal Server Error", ""⟩
  readResp := fun _ => ⟨200, "OK", ""⟩
  writeResp := fun _ => ⟨200, "OK", ""⟩
  createResp := ⟨200, "OK", ""⟩
  createdId := "99"

/-- Witness for C8: on `envC8` the paginated listing returns the ordered,
duplicate-free document sequence, and on `envC8err` the failing page
request surfaces the `listWorkflows` error. -/
theorem listAll_paginates_and_propagates_errors_witness :
    listAllWorkflowsM envC8 =
      .ok [⟨1, "WF A", [], ""⟩, ⟨2, "WF B", [], ""⟩, ⟨3, "WF C", [], ""⟩] ∧
    listAllWorkflowsM envC8err =
      .error "listWorkflows failed: 500 Internal Server Error" := by
  constructor
  · exact ((listAll_paginates_and_propagates_errors envC8).1
      (by intro o; show 200 < 400; decide)).1
  · exact (listAll_paginates_and_propagates_errors envC8err).2 0
      (by show 400 ≤ 500; decide) (by show 0 ≤ 3; decide) (Or.inl ⟨0, rfl⟩)
      (by intro o _ h; omega)

/-! ## The node's `execute`
Embedding of the two versions of
`src/nodes/GithubSessionManager/GithubSessionManager.node.ts`: the direct
credential-update mode (v1) and the bulk rewire mode (v2). Per-item output
decoration is not load-bearing for the verified properties and is omitted;
every network request the code issues is recorded, in order, in the
returned event trace. -/

/-- JS `String.prototype.split(',')` on the character list: split at every
comma; an empty input yields `[""]`, as in JS. -/
def splitCommaChars : List Char → List Char → List String
  | [], acc => [⟨acc.reverse⟩]
  | c :: rest, acc =>
    if c = ',' then ⟨acc.reverse⟩ :: splitCommaChars rest []
    else splitCommaChars rest (c :: acc)

/-- `s.split(',')`. -/
def splitComma (s : String) : List String := splitCommaChars s.data []

/-- JS `String.prototype.trim()`: strip leading and trailing whitespace. -/
def jsTrim (s : String) : String :=
  ⟨((s.data.dropWhile Char.isWhitespace).reverse.dropWhile Char.isWhitespace).reverse⟩

/-- `repositoriesStr.split(',').map(s => s.trim()).filter(Boolean)`. The
trailing `|| undefined` in the source never yields `undefined`: a JS array
(even an empty one) is truthy. -/
def parseRepositories (s : String) : List String :=
  ((splitComma s).map jsTrim).filter (fun t => t ≠ "")

/-- Network requests issued by `execute`: the token exchange (carrying the
`repositories` body field), the direct credential update, and the n8n API
requests of the rewire flow. -/
inductive Ev where
  | ghTokenRequest (repositories : Option (List String))
  | credentialUpdate (credentialId : String) (newAccessToken : String)
  | nApiCall (e : NEvent)
deriving DecidableEq, Repr

/-- The result shape of the credential-secret update. -/
structure UpdateResult where
  updated : Bool
  reason : Option String
deriving DecidableEq, Repr

/-- Modelled from the spec: `updateGithubCredentialById` (the credential
store client's `updateSecret`) is imported by the v1 node from
`helpers/n8n-api`, but its definition is not among the provided sources.
Per §4.3 of the spec it issues a partial update against the record and,
given the response status, returns `{updated:true}` on success, maps
exactly HTTP 405 to `{updated:false, reason:'METHOD_NOT_ALLOWED'}` rather
than failing, and raises `UpdateError` on any other status ≥ 400. -/
def updateGithubCredentialById (status : Nat) : Except String UpdateResult :=
  if status = 405 then .ok { updated := false, reason := some "METHOD_NOT_ALLOWED" }
  else if 400 ≤ status then
    .error ("UpdateError: updateGithubCredentialById failed: " ++ toString status)
  else .ok { updated := true, reason := none }

/-- Parameters of the v1 `execute` (node parameters plus the `githubApi`
credential reference selected in the node's credentials panel). -/
structure V1Params where
  doUpdateTargetCredential : Bool
  n8nBaseUrl : String
  n8nApiKey : String
  decorateHeader : Bool
  permissions : Option (List (String × String))
  repositories : String
  installationId : String
  credRefId : Option String
deriving DecidableEq, Repr

/-- External responses received by the v1 `execute`. -/
structure V1Env where
  ghResp : GhResp
  updateHttpStatus : Nat
deriving DecidableEq, Repr

/-- Scalar outputs the v1 `execute` attaches to every item. -/
structure V1Output where
  githubToken : String
  githubTokenExpiresAt : String
  updateStatus : String
  updatedCredentialId : Option String
deriving DecidableEq, Repr

/-- The v1 `execute`: issue the installation token first; then, when the
update toggle is on, validate the API key and the selected credential,
update that credential by id, and map `{updated}` to
`UPDATED`/`NOT_SUPPORTED` (`SKIPPED` when the toggle is off). -/
def executeV1 (p : V1Params) (env : V1Env) : List Ev × Except String V1Output :=
  let repositories := some (parseRepositories p.repositories)
  let tr := [Ev.ghTokenRequest repositories]
  match (getInstallationToken
    { installationId := p.installationId, permissions := p.permissions,
      repositories := repositories } env.ghResp).2 with
  | .error e => (tr, .error e)
  | .ok td =>
    if p.doUpdateTargetCredential then
      if p.n8nApiKey = "" then
        (tr, .error "n8n API Key is required when update is enabled.")
      else
        let targetId := p.credRefId.getD ""
        if targetId = "" then
          (tr, .error "No githubApi credential is selected in the node’s Credentials panel.")
        else
          let tr2 := tr ++ [Ev.credentialUpdate targetId td.token]
          match updateGithubCredentialById env.updateHttpStatus with
          | .error e => (tr2, .error e)
          | .ok r =>
            (tr2, .ok
              { githubToken := td.token
                githubTokenExpiresAt := td.expires_at
                updateStatus := if r.updated then "UPDATED" else "NOT_SUPPORTED"
                updatedCredentialId := some targetId })
    else
      (tr, .ok
        { githubToken := td.token
          githubTokenExpiresAt := td.expires_at
          updateStatus := "SKIPPED"
          updatedCredentialId := none })

/-- C3 counterexample: with the update toggle on, an empty n8n API key and a
credential selected, the run ends in the validation error — but the token
exchange request was already issued before the validation failure: the
trace is not empty, so the failure is not raised before any network call. -/
theorem executeV1_validation_raised_after_exchange :
    executeV1
      ⟨true, "http://localhost:5678", "", true, none, "", "456", some "42"⟩
      ⟨⟨200, "OK", ⟨"ghs_tok", "2025-11-07T10:10:00Z", ""⟩⟩, 200⟩ =
      ([Ev.ghTokenRequest (some [])],
        .error "n8n API Key is required when update is enabled.") := by
  rfl

/-- C3 (amended): with the update toggle on and a successful token exchange,
an empty API key or a missing/empty selected credential id raises the
corresponding validation error before any credential-store request (no
`credentialUpdate` request is ever issued) — but only after the token
exchange request, which is always the sole network call in the trace. -/
theorem executeV1_validation_before_store_call (p : V1Params) (env : V1Env)
    (hup : p.doUpdateTargetCredential = true)
    (hok : env.ghResp.status < 400)
    (hbad : p.n8nApiKey = "" ∨ p.credRefId.getD "" = "") :
    ∃ msg,
      executeV1 p env =
        ([Ev.ghTokenRequest (some (parseRepositories p.repositories))], .error msg) ∧
      (msg = "n8n API Key is required when update is enabled." ∨
        msg = "No githubApi credential is selected in the node’s Credentials panel.") := by
  have hgh : (getInstallationToken
      { installationId := p.installationId, permissions := p.permissions,
        repositories := some (parseRepositories p.repositories) } env.ghResp).2 =
      .ok ⟨env.ghResp.data.token, env.ghResp.data.expires_at⟩ := by
    simp only [getInstallationToken, if_neg (Nat.not_le.mpr hok)]
  by_cases hkey : p.n8nApiKey = ""
  · refine ⟨"n8n API Key is required when update is enabled.", ?_, Or.inl rfl⟩
    simp [executeV1, hgh, hup, hkey]
  · rcases hbad with hbad | hcred
    · exact absurd hbad hkey
    · refine ⟨"No githubApi credential is selected in the node’s Credentials panel.",
        ?_, Or.inr rfl⟩
      simp [executeV1, hgh, hup, hkey, hcred]

/-- Witness for C3 (amended): with a selected credential but an empty API
key and a 200 exchange, the run fails with the API-key validation error and
its trace holds exactly the token exchange request. -/
theorem executeV1_validation_before_store_call_witness :
    ∃ msg,
      executeV1
        ⟨true, "http://localhost:5678", "", true, none, "", "456", some "42"⟩
        ⟨⟨200, "OK", ⟨"ghs_tok", "2025-11-07T10:10:00Z", ""⟩⟩, 200⟩ =
        ([Ev.ghTokenRequest (some (parseRepositories ""))], .error msg) ∧
      (msg = "n8n API Key is required when update is enabled." ∨
        msg = "No githubApi credential is selected in the node’s Credentials panel.") :=
  executeV1_validation_before_store_call
    ⟨true, "http://localhost:5678", "", true, none, "", "456", some "42"⟩
    ⟨⟨200, "OK", ⟨"ghs_tok", "2025-11-07T10:10:00Z", ""⟩⟩, 200⟩
    rfl (by decide) (Or.inl rfl)

/-- C10: the `repositories` value passed in the token exchange request body
is always a present array — splitting the node parameter on commas,
trimming and dropping empty entries (so an empty or all-whitespace
parameter yields an empty list, never an absent field). -/
theorem executeV1_repositories_always_array (p : V1Params) (env : V1Env) :
    ((executeV1 p env).1).head? =
      some (Ev.ghTokenRequest (some (parseRepositories p.repositories))) ∧
    (∀ s, parseRepositories s =
      ((splitComma s).map jsTrim).filter (fun t => t ≠ "")) ∧
    parseRepositories "" = [] ∧
    parseRepositories "   " = [] ∧
    parseRepositories " owner/a , owner/b ," = ["owner/a", "owner/b"] := by
  refine ⟨?_, fun s => rfl, by decide, by decide, by decide⟩
  cases hgh : (getInstallationToken
      { installationId := p.installationId, permissions := p.permissions,
        repositories := some (parseRepositories p.repositories) } env.ghResp).2 with
  | error e => simp [executeV1, hgh]
  | ok td =>
    by_cases h1 : p.doUpdateTargetCredential
    · by_cases h2 : p.n8nApiKey = ""
      · simp [executeV1, hgh, h1, h2]
      · by_cases h3 : p.credRefId.getD "" = ""
        · simp [executeV1, hgh, h1, h2, h3]
        · cases hup : updateGithubCredentialById env.updateHttpStatus with
          | error e => simp [executeV1, hgh, h1, h2, h3, hup]
          | ok r => simp [executeV1, hgh, h1, h2, h3, hup]
    · simp [executeV1, hgh, h1]

/-- C4: the credential-secret update returns `{updated:true}` on HTTP 200,
returns `{updated:false, reason:'METHOD_NOT_ALLOWED'}` on exactly HTTP 405
instead of failing, and raises an error on any other status ≥ 400; with the
update enabled and valid inputs, direct mode maps this result to outcome
`UPDATED` (200) or `NOT_SUPPORTED` (405) and never throws on the 405 path. -/
theorem updateSecret_contract (p : V1Params) (env : V1Env)
    (hup : p.doUpdateTargetCredential = true)
    (hok : env.ghResp.status < 400)
    (hkey : ¬ p.n8nApiKey = "")
    (hcred : ¬ p.credRefId.getD "" = "") :
    updateGithubCredentialById 200 = .ok { updated := true, reason := none } ∧
    updateGithubCredentialById 405 =
      .ok { updated := false, reason := some "METHOD_NOT_ALLOWED" } ∧
    (∀ s, 400 ≤ s → s ≠ 405 → ∃ e, updateGithubCredentialById s = .error e) ∧
    (env.updateHttpStatus = 405 →
      ∃ out, (executeV1 p env).2 = .ok out ∧ out.updateStatus = "NOT_SUPPORTED") ∧
    (env.updateHttpStatus = 200 →
      ∃ out, (executeV1 p env).2 = .ok out ∧ out.updateStatus = "UPDATED") := by
  have hgh : (getInstallationToken
      { installationId := p.installationId, permissions := p.permissions,
        repositories := some (parseRepositories p.repositories) } env.ghResp).2 =
      .ok ⟨env.ghResp.data.token, env.ghResp.data.expires_at⟩ := by
    simp only [getInstallationToken, if_neg (Nat.not_le.mpr hok)]
  refine ⟨rfl, rfl, ?_, ?_, ?_⟩
  · intro s h400 h405
    refine ⟨"UpdateError: updateGithubCredentialById failed: " ++ toString s, ?_⟩
    simp [updateGithubCredentialById, h405, h400]
  · intro h405
    refine ⟨{ githubToken := env.ghResp.data.token
              githubTokenExpiresAt := env.ghResp.data.expires_at
              updateStatus := "NOT_SUPPORTED"
              updatedCredentialId := some (p.credRefId.getD "") }, ?_, rfl⟩
    simp [executeV1, hgh, hup, hkey, hcred, h405, updateGithubCredentialById]
  · intro h200
    refine ⟨{ githubToken := env.ghResp.data.token
              githubTokenExpiresAt := env.ghResp.data.expires_at
              updateStatus := "UPDATED"
              updatedCredentialId := some (p.credRefId.getD "") }, ?_, rfl⟩
    simp [executeV1, hgh, hup, hkey, hcred, h200, updateGithubCredentialById]

/-- Witness for C4: with valid inputs, a 405 update response yields outcome
`NOT_SUPPORTED` without throwing, a 200 response yields `UPDATED`, and the
pure update contract holds at 200/405. -/
theorem updateSecret_contract_witness :
    updateGithubCredentialById 200 = .ok { updated := true, reason := none } ∧
    updateGithubCredentialById 405 =
      .ok { updated := false, reason := some "METHOD_NOT_ALLOWED" } ∧
    (∃ out, (executeV1
      ⟨true, "http://localhost:5678", "key", true, none, "", "456", some "42"⟩
      ⟨⟨200, "OK", ⟨"ghs_tok", "2025-11-07T10:10:00Z", ""⟩⟩, 405⟩).2 = .ok out ∧
      out.updateStatus = "NOT_SUPPORTED") ∧
    (∃ out, (executeV1
      ⟨true, "http://localhost:5678", "key", true, none, "", "456", some "42"⟩
      ⟨⟨200, "OK", ⟨"ghs_tok", "2025-11-07T10:10:00Z", ""⟩⟩, 200⟩).2 = .ok out ∧
      out.updateStatus = "UPDATED") := by
  obtain ⟨h1, h2, -, h4, -⟩ := updateSecret_contract
    ⟨true, "http://localhost:5678", "key", true, none, "", "456", some "42"⟩
    ⟨⟨200, "OK", ⟨"ghs_tok", "2025-11-07T10:10:00Z", ""⟩⟩, 405⟩
    rfl (by decide) (by decide) (by decide)
  obtain ⟨-, -, -, -, h5⟩ := updateSecret_contract
    ⟨true, "http://localhost:5678", "key", true, none, "", "456", some "42"⟩
    ⟨⟨200, "OK", ⟨"ghs_tok", "2025-11-07T10:10:00Z", ""⟩⟩, 200⟩
    rfl (by decide) (by decide) (by decide)
  exact ⟨h1, h2, h4 rfl, h5 rfl⟩

/-- The loosely-typed `n8nApi` credential object, whose base-URL and key
fields are scraped heuristically (`baseUrl || url || apiUrl`,
`apiKey || token`). -/
structure N8nCredObj where
  baseUrl : Option String
  url : Option String
  apiUrl : Option String
  apiKey : Option String
  token : Option String
deriving DecidableEq, Repr

/-- JS `a || b` on strings: the empty string is falsy. -/
def jsOr (a b : String) : String := if a = "" then b else a

/-- Parameters of the v2 `execute` (bulk rewire mode). -/
structure V2Params where
  decorateHeader : Bool
  permissions : Option (List (String × String))
  repositories : String
  installationId : String
  doRewire : Bool
  n8nCred : Option N8nCredObj
  targetGithubCredentialId : String
  newCredentialName : String
deriving DecidableEq, Repr

/-- External responses received by the v2 `execute`. -/
structure V2Env where
  ghResp : GhResp
  n8n : N8nEnv

/-- The rewire annotation placed on the first output item. -/
structure RewireInfo where
  fromCredentialId : String
  toCredentialId : String
  workflowsUpdated : Nat
deriving DecidableEq, Repr

/-- Scalar outputs of the v2 `execute`. -/
structure V2Output where
  githubToken : String
  githubTokenExpiresAt : String
  rewire : Option RewireInfo
deriving DecidableEq, Repr

/-- The v2 `execute`: issue the installation token, then — when rewiring is
enabled — validate the n8n credential, its API key and the target
credential id, create the new `githubApi` credential holding the fresh
token, and only then rewire the workflows from the old credential to the
newly created one. -/
def executeV2 (p : V2Params) (env : V2Env) : List Ev × Except String V2Output :=
  let repositories := some (parseRepositories p.repositories)
  let tr := [Ev.ghTokenRequest repositories]
  match (getInstallationToken
    { installationId := p.installationId, permissions := p.permissions,
      repositories := repositories } env.ghResp).2 with
  | .error e => (tr, .error e)
  | .ok td =>
    if p.doRewire then
      match p.n8nCred with
      | none =>
        (tr, .error "n8n API credential is required when \"Rotate by rewire\" is enabled.")
      | some cred =>
        if jsOr (cred.apiKey.getD "") (cred.token.getD "") = "" then
          (tr, .error "n8n API credential is missing API key/token.")
        else if p.targetGithubCredentialId = "" then
          (tr, .error "Target GitHub Credential (githubApi) is required.")
        else
          let tr2 := tr ++ [Ev.nApiCall (NEvent.createReq p.newCredentialName td.token)]
          match createGithubApiCredentialM env.n8n p.newCredentialName td.token with
          | .error e => (tr2, .error e)
          | .ok created =>
            let rw := rewireWorkflowsGithubCredentialM env.n8n
              p.targetGithubCredentialId created.id
            let tr3 := tr2 ++ rw.1.map Ev.nApiCall
            match rw.2 with
            | .error e => (tr3, .error e)
            | .ok cnt =>
              (tr3, .ok
                { githubToken := td.token
                  githubTokenExpiresAt := td.expires_at
                  rewire := some ⟨p.targetGithubCredentialId, created.id, cnt⟩ })
    else
      (tr, .ok
        { githubToken := td.token
          githubTokenExpiresAt := td.expires_at
          rewire := none })

/-- C5: in bulk rewire mode (valid inputs, successful exchange), the new
credential's creation request is always issued before any document registry
request: the trace starts with the token exchange followed immediately by
the create request, and everything after it is the rewire flow; if the
creation fails (status ≥ 400), nothing follows it — no document is listed,
read or written — and the creation error propagates. -/
theorem rewire_creates_credential_before_any_scan (p : V2Params) (env : V2Env)
    (cred : N8nCredObj)
    (hdr : p.doRewire = true)
    (hok : env.ghResp.status < 400)
    (hcred : p.n8nCred = some cred)
    (hkey : ¬ jsOr (cred.apiKey.getD "") (cred.token.getD "") = "")
    (htgt : ¬ p.targetGithubCredentialId = "") :
    ∃ rest,
      (executeV2 p env).1 =
        [Ev.ghTokenRequest (some (parseRepositories p.repositories)),
          Ev.nApiCall (NEvent.createReq p.newCredentialName env.ghResp.data.token)] ++ rest ∧
      (400 ≤ env.n8n.createResp.status →
        rest = [] ∧
        (executeV2 p env).2 =
          .error ("createGithubApiCredential failed: " ++
            toString env.n8n.createResp.status ++ " " ++ env.n8n.createResp.statusText ++
            " - " ++ env.n8n.createResp.bodyJson)) := by
  have hgh : (getInstallationToken
      { installationId := p.installationId, permissions := p.permissions,
        repositories := some (parseRepositories p.repositories) } env.ghResp).2 =
      .ok ⟨env.ghResp.data.token, env.ghResp.data.expires_at⟩ := by
    simp only [getInstallationToken, if_neg (Nat.not_le.mpr hok)]
  by_cases hc : 400 ≤ env.n8n.createResp.status
  · have hcr : createGithubApiCredentialM env.n8n p.newCredentialName
        env.ghResp.data.token =
        .error ("createGithubApiCredential failed: " ++
          toString env.n8n.createResp.status ++ " " ++ env.n8n.createResp.statusText ++
          " - " ++ env.n8n.createResp.bodyJson) := by
      unfold createGithubApiCredentialM
      rw [if_pos hc]
    refine ⟨[], ?_, fun _ => ⟨rfl, ?_⟩⟩
    · simp [executeV2, hgh, hdr, hcred, hkey, htgt, hcr]
    · simp [executeV2, hgh, hdr, hcred, hkey, htgt, hcr]
  · have hcr : createGithubApiCredentialM env.n8n p.newCredentialName
        env.ghResp.data.token =
        .ok { id := env.n8n.createdId, name := p.newCredentialName, type := "githubApi" } := by
      unfold createGithubApiCredentialM
      rw [if_neg hc]
    refine ⟨((rewireWorkflowsGithubCredentialM env.n8n
      p.targetGithubCredentialId env.n8n.createdId).1).map Ev.nApiCall,
      ?_, fun h400 => absurd h400 hc⟩
    cases hrw : (rewireWorkflowsGithubCredentialM env.n8n
        p.targetGithubCredentialId env.n8n.createdId).2 with
    | error e => simp [executeV2, hgh, hdr, hcred, hkey, htgt, hcr, hrw]
    | ok cnt => simp [executeV2, hgh, hdr, hcred, hkey, htgt, hcr, hrw]

/-- The v2 server of the C5 witness: the credential creation request is
answered with 500; list/read/write would succeed, but must never happen. -/
def envC5 : V2Env where
  ghResp := ⟨200, "OK", ⟨"ghs_tok", "2025-11-07T10:10:00Z", ""⟩⟩
  n8n :=
    { workflows := [⟨1, "WF A", [], ""⟩]
      listResp := fun _ => ⟨200, "OK", ""⟩
      readResp := fun _ => ⟨200, "OK", ""⟩
      writeResp := fun _ => ⟨200, "OK", ""⟩
      createResp := ⟨500, "Internal Server Error", "\x7b\x7d"⟩
      createdId := "99" }

/-- Witness for C5: with rewiring enabled and the creation failing with
500, the trace is exactly the token exchange followed by the create request
— no list, read or write request is issued — and the creation error is the
run's result. -/
theorem rewire_creates_credential_before_any_scan_witness :
    (executeV2
      ⟨true, none, "", "456", true, some ⟨none, none, none, some "k", none⟩, "42",
        "GitHub Session (Rotated)"⟩ envC5).1 =
      [Ev.ghTokenRequest (some []),
        Ev.nApiCall (NEvent.createReq "GitHub Session (Rotated)" "ghs_tok")] ∧
    (executeV2
      ⟨true, none, "", "456", true, some ⟨none, none, none, some "k", none⟩, "42",
        "GitHub Session (Rotated)"⟩ envC5).2 =
      .error "createGithubApiCredential failed: 500 Internal Server Error - \x7b\x7d" := by
  obtain ⟨rest, h1, h2⟩ := rewire_creates_credential_before_any_scan
    ⟨true, none, "", "456", true, some ⟨none, none, none, some "k", none⟩, "42",
      "GitHub Session (Rotated)"⟩ envC5 ⟨none, none, none, some "k", none⟩
    rfl (by decide) rfl (by decide) (by decide)
  obtain ⟨hrest, herr⟩ := h2 (by decide)
  constructor
  · rw [h1, hrest]
    rfl
  · rw [herr]
    rfl
